import Mathlib

/-!
Verification of the key-management, signing and contract-payload codec
subsystem of the NetCloth go-sdk.

The Go sources are shallowly embedded: bytes are `Nat` lists (each entry a
value below 256), machine words are `Nat` with explicit reduction modulo
`2 ^ 32`, fallible operations return `Option` or a `(state, Option error)`
pair mirroring a Go method that mutates its receiver and returns an `error`.
External collaborators that the repository only calls into (file I/O, JSON
parsing, the keystore decryption primitives, amino marshalling, raw ECDSA
signing) appear as explicit environment records, so every theorem quantifies
over their behaviour; deterministic external primitives with a fixed public
definition (SHA-256, RIPEMD-160, hex, bech32, the secp256k1 point codec of
btcec) are embedded concretely.
-/

namespace NchSdk

set_option maxRecDepth 1000000
set_option maxHeartbeats 1600000

/-! ## Byte-level utilities -/

/-- Big-endian value of a byte list, most significant byte first.  Embeds Go
`new(big.Int).SetBytes`. -/
def bytesToNat (bs : List Nat) : Nat :=
  bs.foldl (fun acc b => acc * 256 + b) 0

/-- Big-endian byte list of `x`, exactly `n` bytes (the low `8 * n` bits). -/
def natToBytesBE : Nat → Nat → List Nat
  | 0, _ => []
  | n + 1, x => natToBytesBE n (x / 256) ++ [x % 256]

/-! ## Hex encoding and decoding (Go `encoding/hex`) -/

/-- Value of one hexadecimal digit, as in Go `hex.fromHexChar`: digits,
lowercase and uppercase letters are accepted. -/
def hexDigitVal (c : Char) : Option Nat :=
  if c.toNat ≥ 48 ∧ c.toNat ≤ 57 then some (c.toNat - 48)
  else if c.toNat ≥ 97 ∧ c.toNat ≤ 102 then some (c.toNat - 87)
  else if c.toNat ≥ 65 ∧ c.toNat ≤ 70 then some (c.toNat - 55)
  else none

/-- Decode a list of hex characters two at a time.  `none` embeds the error
return of Go `hex.DecodeString`: an invalid character or an odd-length
input makes the whole call fail. -/
def hexDecodeChars : List Char → Option (List Nat)
  | [] => some []
  | [_] => none
  | hi :: lo :: rest =>
    match hexDigitVal hi, hexDigitVal lo, hexDecodeChars rest with
    | some h, some l, some bs => some ((h * 16 + l) :: bs)
    | _, _, _ => none

/-- Go `hex.DecodeString`, restricted to its use sites: the callers abort on
any error, so only the success value matters. -/
def hexDecode (s : String) : Option (List Nat) :=
  hexDecodeChars s.data

/-- Lowercase hex digit character of a value below 16. -/
def hexDigitChar (v : Nat) : Char :=
  if v < 10 then Char.ofNat (48 + v) else Char.ofNat (87 + v)

/-- Lowercase hex encoding of a byte list (Go `hex.EncodeToString`). -/
def hexEncode (bs : List Nat) : String :=
  ⟨bs.foldr (fun b acc => hexDigitChar (b / 16) :: hexDigitChar (b % 16) :: acc) []⟩

/-! ## SHA-256 (FIPS 180-4, as used through Go `crypto/sha256`) -/

/-- Reduction modulo `2 ^ 32`, the machine-word mask of the hash kernels. -/
def m32 (x : Nat) : Nat := x % 4294967296

/-- Rotates a 32-bit word right by `n` bits. -/
def rotr32 (n x : Nat) : Nat := m32 ((x >>> n) + (x <<< (32 - n)))

/-- The 64 SHA-256 round constants. -/
def shaK : List Nat :=
  [1116352408, 1899447441, 3049323471, 3921009573, 961987163,
   1508970993, 2453635748, 2870763221, 3624381080, 310598401,
   607225278, 1426881987, 1925078388, 2162078206, 2614888103,
   3248222580, 3835390401, 4022224774, 264347078, 604807628,
   770255983, 1249150122, 1555081692, 1996064986, 2554220882,
   2821834349, 2952996808, 3210313671, 3336571891, 3584528711,
   113926993, 338241895, 666307205, 773529912, 1294757372,
   1396182291, 1695183700, 1986661051, 2177026350, 2456956037,
   2730485921, 2820302411, 3259730800, 3345764771, 3516065817,
   3600352804, 4094571909, 275423344, 430227734, 506948616,
   659060556, 883997877, 958139571, 1322822218, 1537002063,
   1747873779, 1955562222, 2024104815, 2227730452, 2361852424,
   2428436474, 2756734187, 3204031479, 3329325298]

/-- Running state of the SHA-256 compression function. -/
structure Sha256State where
  s0 : Nat
  s1 : Nat
  s2 : Nat
  s3 : Nat
  s4 : Nat
  s5 : Nat
  s6 : Nat
  s7 : Nat

/-- Initial SHA-256 chaining value. -/
def sha256Init : Sha256State :=
  ⟨1779033703, 3144134277, 1013904242, 2773480762,
   1359893119, 2600822924, 528734635, 1541459225⟩

/-- Group a byte list into big-endian 32-bit words. -/
def toWordsBE : List Nat → List Nat
  | b0 :: b1 :: b2 :: b3 :: rest => (((b0 * 256 + b1) * 256 + b2) * 256 + b3) :: toWordsBE rest
  | _ => []

/-- Extend a reversed 16-word block by `fuel` scheduled words (SHA-256
message schedule); the freshest word sits at the head. -/
def shaExtend : Nat → List Nat → List Nat
  | 0, acc => acc
  | fuel + 1, acc =>
    let w2 := acc.getD 1 0
    let w7 := acc.getD 6 0
    let w15 := acc.getD 14 0
    let w16 := acc.getD 15 0
    let sg0 := (rotr32 7 w15) ^^^ (rotr32 18 w15) ^^^ (w15 >>> 3)
    let sg1 := (rotr32 17 w2) ^^^ (rotr32 19 w2) ^^^ (w2 >>> 10)
    shaExtend fuel (m32 (w16 + sg0 + w7 + sg1) :: acc)

/-- One SHA-256 round: mix the scheduled word `w` and constant `k` into the
working variables. -/
def sha256Round (st : Sha256State) (kw : Nat × Nat) : Sha256State :=
  let bigS1 := (rotr32 6 st.s4) ^^^ (rotr32 11 st.s4) ^^^ (rotr32 25 st.s4)
  let ch := (st.s4 &&& st.s5) ^^^ ((st.s4 ^^^ 4294967295) &&& st.s6)
  let t1 := m32 (st.s7 + bigS1 + ch + kw.1 + kw.2)
  let bigS0 := (rotr32 2 st.s0) ^^^ (rotr32 13 st.s0) ^^^ (rotr32 22 st.s0)
  let maj := (st.s0 &&& st.s1) ^^^ (st.s0 &&& st.s2) ^^^ (st.s1 &&& st.s2)
  let t2 := m32 (bigS0 + maj)
  ⟨m32 (t1 + t2), st.s0, st.s1, st.s2, m32 (st.s3 + t1), st.s4, st.s5, st.s6⟩

/-- Compress one 64-byte block into the chaining state. -/
def sha256Block (st : Sha256State) (block : List Nat) : Sha256State :=
  let ws := (shaExtend 48 (toWordsBE block).reverse).reverse
  let f := (shaK.zip ws).foldl sha256Round st
  ⟨m32 (st.s0 + f.s0), m32 (st.s1 + f.s1), m32 (st.s2 + f.s2), m32 (st.s3 + f.s3),
   m32 (st.s4 + f.s4), m32 (st.s5 + f.s5), m32 (st.s6 + f.s6), m32 (st.s7 + f.s7)⟩

/-- Split a byte list into 64-byte blocks; `fuel` bounds the recursion and is
instantiated with the list length. -/
def chunk64 : Nat → List Nat → List (List Nat)
  | 0, _ => []
  | _, [] => []
  | fuel + 1, bs => bs.take 64 :: chunk64 fuel (bs.drop 64)

/-- SHA-256 padding: `0x80`, zeros to 56 mod 64, then the bit length as eight
big-endian bytes. -/
def shaPad (bs : List Nat) : List Nat :=
  let l := bs.length
  bs ++ 0x80 :: List.replicate ((64 - (l + 9) % 64) % 64) 0 ++ natToBytesBE 8 (8 * l)

/-- Serialize the final chaining state, big-endian. -/
def sha256Digest (st : Sha256State) : List Nat :=
  natToBytesBE 4 st.s0 ++ natToBytesBE 4 st.s1 ++ natToBytesBE 4 st.s2 ++ natToBytesBE 4 st.s3 ++
  natToBytesBE 4 st.s4 ++ natToBytesBE 4 st.s5 ++ natToBytesBE 4 st.s6 ++ natToBytesBE 4 st.s7

/-- SHA-256 of a byte list. -/
def sha256 (bs : List Nat) : List Nat :=
  let padded := shaPad bs
  sha256Digest ((chunk64 padded.length padded).foldl sha256Block sha256Init)

/-! ## RIPEMD-160 (as used through `golang.org/x/crypto/ripemd160`) -/

/-- Rotates a 32-bit word left by `n` bits. -/
def rotl32 (n x : Nat) : Nat := m32 ((x <<< n) + (x >>> (32 - n)))

/-- Little-endian byte list of `x`, exactly `n` bytes. -/
def natToBytesLE : Nat → Nat → List Nat
  | 0, _ => []
  | n + 1, x => x % 256 :: natToBytesLE n (x / 256)

/-- Group a byte list into little-endian 32-bit words. -/
def toWordsLE : List Nat → List Nat
  | b0 :: b1 :: b2 :: b3 :: rest => (((b3 * 256 + b2) * 256 + b1) * 256 + b0) :: toWordsLE rest
  | _ => []

/-- The RIPEMD-160 selection function for step `j`. -/
def ripF (j x y z : Nat) : Nat :=
  if j < 16 then x ^^^ y ^^^ z
  else if j < 32 then (x &&& y) ||| ((x ^^^ 4294967295) &&& z)
  else if j < 48 then (x ||| (y ^^^ 4294967295)) ^^^ z
  else if j < 64 then (x &&& z) ||| (y &&& (z ^^^ 4294967295))
  else x ^^^ (y ||| (z ^^^ 4294967295))

/-- Left-line round constants. -/
def ripKL (j : Nat) : Nat :=
  if j < 16 then 0 else if j < 32 then 0x5a827999 else if j < 48 then 0x6ed9eba1
  else if j < 64 then 0x8f1bbcdc else 0xa953fd4e

/-- Right-line round constants. -/
def ripKR (j : Nat) : Nat :=
  if j < 16 then 0x50a28be6 else if j < 32 then 0x5c4dd124 else if j < 48 then 0x6d703ef3
  else if j < 64 then 0x7a6d76e9 else 0

/-- Left-line message word order. -/
def ripRL : List Nat :=
  [0, 1, 2, 3, 4, 5, 6, 7, 8, 9, 10, 11, 12, 13, 14, 15,
   7, 4, 13, 1, 10, 6, 15, 3, 12, 0, 9, 5, 2, 14, 11, 8,
   3, 10, 14, 4, 9, 15, 8, 1, 2, 7, 0, 6, 13, 11, 5, 12,
   1, 9, 11, 10, 0, 8, 12, 4, 13, 3, 7, 15, 14, 5, 6, 2,
   4, 0, 5, 9, 7, 12, 2, 10, 14, 1, 3, 8, 11, 6, 15, 13]

/-- Right-line message word order. -/
def ripRR : List Nat :=
  [5, 14, 7, 0, 9, 2, 11, 4, 13, 6, 15, 8, 1, 10, 3, 12,
   6, 11, 3, 7, 0, 13, 5, 10, 14, 15, 8, 12, 4, 9, 1, 2,
   15, 5, 1, 3, 7, 14, 6, 9, 11, 8, 12, 2, 10, 0, 4, 13,
   8, 6, 4, 1, 3, 11, 15, 0, 5, 12, 2, 13, 9, 7, 10, 14,
   12, 15, 10, 4, 1, 5, 8, 7, 6, 2, 13, 14, 0, 3, 9, 11]

/-- Left-line rotation amounts. -/
def ripSL : List Nat :=
  [11, 14, 15, 12, 5, 8, 7, 9, 11, 13, 14, 15, 6, 7, 9, 8,
   7, 6, 8, 13, 11, 9, 7, 15, 7, 12, 15, 9, 11, 7, 13, 12,
   11, 13, 6, 7, 14, 9, 13, 15, 14, 8, 13, 6, 5, 12, 7, 5,
   11, 12, 14, 15, 14, 15, 9, 8, 9, 14, 5, 6, 8, 6, 5, 12,
   9, 15, 5, 11, 6, 8, 13, 12, 5, 12, 13, 14, 11, 8, 5, 6]

/-- Right-line rotation amounts. -/
def ripSR : List Nat :=
  [8, 9, 9, 11, 13, 15, 15, 5, 7, 7, 8, 11, 14, 14, 12, 6,
   9, 13, 15, 7, 12, 8, 9, 11, 7, 7, 12, 7, 6, 15, 13, 11,
   9, 7, 15, 11, 8, 6, 6, 14, 12, 13, 5, 14, 13, 13, 7, 5,
   15, 5, 8, 11, 14, 14, 6, 14, 6, 9, 12, 9, 12, 5, 15, 8,
   8, 5, 12, 9, 12, 5, 14, 6, 8, 13, 6, 5, 15, 13, 11, 11]

/-- Working variables of one RIPEMD-160 line. -/
structure RipLineState where
  a : Nat
  b : Nat
  c : Nat
  d : Nat
  e : Nat

/-- One step of the left line. -/
def ripStepL (x : List Nat) (st : RipLineState) (j : Nat) : RipLineState :=
  let t := m32 (rotl32 (ripSL.getD j 0)
    (m32 (st.a + ripF j st.b st.c st.d + x.getD (ripRL.getD j 0) 0 + ripKL j)) + st.e)
  ⟨st.e, t, st.b, rotl32 10 st.c, st.d⟩

/-- One step of the right line. -/
def ripStepR (x : List Nat) (st : RipLineState) (j : Nat) : RipLineState :=
  let t := m32 (rotl32 (ripSR.getD j 0)
    (m32 (st.a + ripF (79 - j) st.b st.c st.d + x.getD (ripRR.getD j 0) 0 + ripKR j)) + st.e)
  ⟨st.e, t, st.b, rotl32 10 st.c, st.d⟩

/-- Chaining value of RIPEMD-160. -/
structure RipState where
  h0 : Nat
  h1 : Nat
  h2 : Nat
  h3 : Nat
  h4 : Nat

/-- Initial RIPEMD-160 chaining value. -/
def ripInit : RipState := ⟨1732584193, 4023233417, 2562383102, 271733878, 3285377520⟩

/-- Compress one 64-byte block into the RIPEMD-160 chaining state. -/
def ripBlock (st : RipState) (block : List Nat) : RipState :=
  let x := toWordsLE block
  let start : RipLineState := ⟨st.h0, st.h1, st.h2, st.h3, st.h4⟩
  let l := (List.range 80).foldl (ripStepL x) start
  let r := (List.range 80).foldl (ripStepR x) start
  ⟨m32 (st.h1 + l.c + r.d), m32 (st.h2 + l.d + r.e), m32 (st.h3 + l.e + r.a),
   m32 (st.h4 + l.a + r.b), m32 (st.h0 + l.b + r.c)⟩

/-- RIPEMD-160 padding: `0x80`, zeros, then the bit length as eight
little-endian bytes. -/
def ripPad (bs : List Nat) : List Nat :=
  let l := bs.length
  bs ++ 0x80 :: List.replicate ((64 - (l + 9) % 64) % 64) 0 ++ natToBytesLE 8 (8 * l)

/-- RIPEMD-160 of a byte list; the digest is the little-endian serialization
of the five chaining words, 20 bytes. -/
def ripemd160 (bs : List Nat) : List Nat :=
  let padded := ripPad bs
  let st := (chunk64 padded.length padded).foldl ripBlock ripInit
  natToBytesLE 4 st.h0 ++ natToBytesLE 4 st.h1 ++ natToBytesLE 4 st.h2 ++
  natToBytesLE 4 st.h3 ++ natToBytesLE 4 st.h4

/-! ## Modular exponentiation -/

/-- Binary modular exponentiation; the fuel argument only bounds the
recursion (the exponent halves every step) and is instantiated large
enough below. -/
def powModAux : Nat → Nat → Nat → Nat → Nat
  | 0, _, _, m => 1 % m
  | fuel + 1, b, e, m =>
    if e = 0 then 1 % m
    else
      let r := powModAux fuel (b * b % m) (e / 2) m
      if e % 2 = 1 then r * (b % m) % m else r

/-- Computes `b ^ e` modulo `m` by repeated squaring so that the kernel can
evaluate it on 256-bit inputs. -/
def powMod (b e m : Nat) : Nat := powModAux (e + 1) b e m

/-! ## The secp256k1 curve and the btcec point codec
(`github.com/btcsuite/btcd/btcec` v0.21.0-beta) -/

/-- The secp256k1 field prime. -/
def secpP : Nat := 2 ^ 256 - 2 ^ 32 - 977

/-- Odd test on a `Nat`, as btcec `isOdd` on a `big.Int`. -/
def isOddN (n : Nat) : Bool := n % 2 == 1

/-- Field negation as btcec computes it for a normalized value: `p - y`
reduced. -/
def fneg (y : Nat) : Nat := (secpP - y % secpP) % secpP

/-- An affine secp256k1 point as btcec's `PublicKey` holds it: two
coordinates (the codomain of `ParsePubKey`, always a finite point). -/
structure Pt where
  x : Nat
  y : Nat
deriving DecidableEq

/-- btcec `IsOnCurve`: `y² mod p = (x³ + 7) mod p`. -/
def onCurve (x y : Nat) : Bool := y * y % secpP == (x * x % secpP * x + 7) % secpP

/-- btcec `decompressPoint`: the square-root candidate
`(x³ + 7) ^ ((p + 1) / 4) mod p`, checked to be a root, then adjusted and
checked against the requested parity bit. -/
def decompressPoint (x : Nat) (ybit : Bool) : Option Nat :=
  let c := (x * x % secpP * x + 7) % secpP
  let y0 := powMod c ((secpP + 1) / 4) secpP
  if y0 * y0 % secpP ≠ c then none
  else
    let y1 := if isOddN y0 = ybit then y0 else fneg y0
    if isOddN y1 = ybit then some y1 else none

/-- The 33-byte branch of btcec `ParsePubKey`: decompress the y-coordinate
from the x-coordinate and the parity bit of the magic byte. -/
def parseCompressedBranch (X : Nat) (ybit : Bool) : Option Pt :=
  match decompressPoint X ybit with
  | none => none
  | some Y => some ⟨X, Y⟩

/-- The format-dispatch part of btcec `ParsePubKey`: accepts the 65-byte
uncompressed (`0x04`) and hybrid (`0x06`/`0x07`) forms and the 33-byte
compressed (`0x02`/`0x03`) form, rejecting every other length or magic. -/
def parsePubKeyRaw (bs : List Nat) : Option Pt :=
  match bs with
  | [] => none
  | b0 :: rest =>
    let ybit := isOddN b0
    let format := b0 - b0 % 2
    if bs.length = 65 then
      if format ≠ 4 ∧ format ≠ 6 then none
      else
        let X := bytesToNat (rest.take 32)
        let Y := bytesToNat (rest.drop 32)
        if format = 6 ∧ ybit ≠ isOddN Y then none
        else some ⟨X, Y⟩
    else if bs.length = 33 then
      if format ≠ 2 then none
      else parseCompressedBranch (bytesToNat (rest.take 32)) ybit
    else none

/-- btcec `ParsePubKey`: the format dispatch followed by the final checks —
both coordinates below the field prime and the curve equation. -/
def parsePubKey (bs : List Nat) : Option Pt :=
  match parsePubKeyRaw bs with
  | none => none
  | some P =>
    if P.x ≥ secpP then none
    else if P.y ≥ secpP then none
    else if ¬ onCurve P.x P.y then none
    else some P

/-- btcec `SerializeCompressed`: parity magic then the 32-byte big-endian
x-coordinate. -/
def serializeCompressed (P : Pt) : List Nat :=
  (if isOddN P.y then 3 else 2) :: natToBytesBE 32 P.x

/-- btcec `SerializeUncompressed`: `0x04` then both 32-byte big-endian
coordinates. -/
def serializeUncompressed (P : Pt) : List Nat :=
  4 :: (natToBytesBE 32 P.x ++ natToBytesBE 32 P.y)

/-! ## Scalar multiplication on secp256k1
(the pubkey derivation behind tendermint `PrivKeySecp256k1.PubKey`) -/

/-- Modular inverse in the secp256k1 field, via Fermat. -/
def finv (a : Nat) : Nat := powMod a (secpP - 2) secpP

/-- Field subtraction with both operands reduced first. -/
def fsub (a b : Nat) : Nat := (a % secpP + (secpP - b % secpP)) % secpP

/-- Affine point doubling; `none` is the point at infinity. -/
def ptDouble (x y : Nat) : Option (Nat × Nat) :=
  if y % secpP = 0 then none
  else
    let l := 3 * x % secpP * x % secpP * finv (2 * y % secpP) % secpP
    let xr := fsub (l * l) (2 * x)
    some (xr, fsub (l * fsub x xr) y)

/-- Affine point addition; `none` is the point at infinity. -/
def ptAdd (P Q : Option (Nat × Nat)) : Option (Nat × Nat) :=
  match P, Q with
  | none, q => q
  | p, none => p
  | some (x1, y1), some (x2, y2) =>
    if x1 % secpP = x2 % secpP then
      if (y1 + y2) % secpP = 0 then none else ptDouble x1 y1
    else
      let l := fsub y2 y1 * finv (fsub x2 x1) % secpP
      let xr := fsub (l * l) (x1 + x2)
      some (xr, fsub (l * fsub x1 xr) y1)

/-- Double-and-add scalar multiplication, least significant bit first; the
fuel bounds the recursion and 257 covers every 256-bit scalar. -/
def scalarMulAux : Nat → Nat → Option (Nat × Nat) → Option (Nat × Nat) → Option (Nat × Nat)
  | 0, _, acc, _ => acc
  | fuel + 1, k, acc, base =>
    if k = 0 then acc
    else scalarMulAux fuel (k / 2) (if k % 2 = 1 then ptAdd acc base else acc) (ptAdd base base)

/-- The secp256k1 base point. -/
def secpG : Nat × Nat :=
  (0x79be667ef9dcbbac55a06295ce870b07029bfcdb2dce28d959f2815b16f81798,
   0x483ada7726a3c4655da4fbfc0e1108a8fd17b448a68554199c47d08ffb10d4b8)

/-- Computes `k · G`, the public point of the scalar `k`. -/
def scalarBaseMult (k : Nat) : Option (Nat × Nat) := scalarMulAux 257 k none (some secpG)

/-- The 33-byte compressed public key bytes of a 32-byte private key
(tendermint `PrivKeySecp256k1.PubKey`, i.e. btcec `PrivKeyFromBytes`
followed by `SerializeCompressed`). -/
def pubKeyBytesOf (sk : List Nat) : List Nat :=
  match scalarBaseMult (bytesToNat sk) with
  | none => []
  | some (x, y) => serializeCompressed ⟨x, y⟩

/-- Tendermint secp256k1 address of a private key:
`RIPEMD160(SHA256(compressed pubkey))`. -/
def deriveAddr (sk : List Nat) : List Nat := ripemd160 (sha256 (pubKeyBytesOf sk))

/-! ## Bech32 address text (BIP-173, prefix `nch`, as behind
`types.AccAddress.String`) -/

/-- The bech32 data character set. -/
def bech32Charset : List Char :=
  ['q', 'p', 'z', 'r', 'y', '9', 'x', '8', 'g', 'f', '2', 't', 'v', 'd', 'w', '0',
   's', '3', 'j', 'n', '5', '4', 'k', 'h', 'c', 'e', '6', 'm', 'u', 'a', '7', 'l']

/-- The bech32 checksum generator constants. -/
def bech32Gen : List Nat := [0x3b6a57b2, 0x26508e6d, 0x1ea119fa, 0x3d4233dd, 0x2a1462b3]

/-- One step of the bech32 checksum polynomial. -/
def bech32PolymodStep (chk v : Nat) : Nat :=
  let b := chk >>> 25
  (List.range 5).foldl
    (fun c i => if (b >>> i) % 2 = 1 then c ^^^ bech32Gen.getD i 0 else c)
    (((chk &&& 0x1ffffff) <<< 5) ^^^ v)

/-- The bech32 checksum polynomial. -/
def bech32Polymod (values : List Nat) : Nat := values.foldl bech32PolymodStep 1

/-- The human-readable-part expansion feeding the checksum. -/
def bech32HrpExpand (hrp : List Char) : List Nat :=
  hrp.map (fun c => c.toNat >>> 5) ++ [0] ++ hrp.map (fun c => c.toNat &&& 31)

/-- The six 5-bit checksum values for `hrp` and `data`. -/
def bech32Checksum (hrp : List Char) (data : List Nat) : List Nat :=
  let pm := bech32Polymod (bech32HrpExpand hrp ++ data ++ [0, 0, 0, 0, 0, 0]) ^^^ 1
  (List.range 6).map (fun i => (pm >>> (5 * (5 - i))) &&& 31)

/-- A bech32 string: hrp, separator `1`, data and checksum characters. -/
def bech32Encode (hrp : List Char) (data : List Nat) : String :=
  ⟨hrp ++ '1' :: (data ++ bech32Checksum hrp data).map (fun v => bech32Charset.getD v 'q')⟩

/-- Regroup 8-bit bytes into 5-bit values, padding the tail (bech32
`convertbits(·, 8, 5, true)`); `acc`/`bits` carry at most 7 pending bits. -/
def convert85 : List Nat → Nat → Nat → List Nat
  | [], acc, bits => if 0 < bits then [acc <<< (5 - bits) % 32] else []
  | b :: rest, acc, bits =>
    let acc2 := (acc <<< 8) + b % 256
    let bits2 := bits + 8
    if bits2 ≥ 10 then
      (acc2 >>> (bits2 - 5)) % 32 :: (acc2 >>> (bits2 - 10)) % 32 :: convert85 rest acc2 (bits2 - 10)
    else
      (acc2 >>> (bits2 - 5)) % 32 :: convert85 rest acc2 (bits2 - 5)

/-- Embeds `types.AccAddress.String`: the bech32 text of an address with the
NetCloth prefix `nch`. -/
def accAddressString (addr : List Nat) : String :=
  bech32Encode ['n', 'c', 'h'] (convert85 addr 0 0)

/-! ## The `keys` package functions on public keys
(`src/keys/key.go`) -/

/-- The re-expansion step of `GetUCPubKey` on raw compressed bytes: btcec
`ParsePubKey` (the `[5:]` in `key.go` strips the amino prefix first) followed
by `SerializeUncompressed`. -/
def reExpandCompressed (ck : List Nat) : Option (List Nat) :=
  (parsePubKey ck).map serializeUncompressed

/-- Embeds `GetCompressedPubKey`: hex-decode, parse as a secp256k1 public key,
serialize compressed; `none` embeds every error return. -/
def GetCompressedPubKey (uncompressedPubKey : String) : Option (List Nat) :=
  (hexDecode uncompressedPubKey).bind
    (fun bs => (parsePubKey bs).map serializeCompressed)

/-- Embeds `GetCompressedAddress`: compress via `GetCompressedPubKey`, then hash the
result with SHA-256 and then RIPEMD-160. -/
def GetCompressedAddress (uncompressedPubKey : String) : Option (List Nat) :=
  (GetCompressedPubKey uncompressedPubKey).map (fun pk => ripemd160 (sha256 pk))

/-- Errors of `GetBech32AddrByPubkeyStr`: the explicit empty-input check and
the hex decoder's error. -/
inductive AddrErr
  | emptyPubkey
  | hexErr
deriving DecidableEq

instance instDecEqExcept {ε α : Type} [DecidableEq ε] [DecidableEq α] :
    DecidableEq (Except ε α) := fun a b => by
  cases a <;> cases b <;>
    first
    | exact isFalse (fun h => Except.noConfusion h)
    | rename_i x y; exact decidable_of_iff (x = y) (by simp)

/-- Go `copy(pk[:], pubkeyHex)` into `var pk [33]byte`: the first 33 bytes,
zero-padded when shorter. -/
def copyPad33 (bs : List Nat) : List Nat := bs.take 33 ++ List.replicate (33 - bs.length) 0

/-- Embeds `GetBech32AddrByPubkeyStr`: rejects only the empty string and hex
errors, copies the decoded bytes into a fixed 33-byte buffer, and returns
the bech32 text of the tendermint address of that buffer. -/
def GetBech32AddrByPubkeyStr (pubkeyStr : String) : Except AddrErr String :=
  if pubkeyStr.length = 0 then .error .emptyPubkey
  else
    match hexDecode pubkeyStr with
    | none => .error .hexErr
    | some pubkeyHex => .ok (accAddressString (ripemd160 (sha256 (copyPad33 pubkeyHex))))

/-! ## The keyManager state and the keystore loaders
(`src/keys/key.go`) -/

/-- The mutable fields of a `keyManager`; `none` is the Go zero value (a nil
interface / nil slice, the uninitialized manager). -/
structure KMState where
  privKey : Option (List Nat)
  addr : Option (List Nat)
deriving DecidableEq

/-- The distinct error returns of the two keystore loaders, in source
order. -/
inductive KeyErr
  | passwordMissing
  | fileReadErr
  | jsonUnmarshalErr
  | decryptFailed
  | keyLenNot32
  | importFailed
deriving DecidableEq

/-- Modelled from the spec: the encrypted-JSON keystore document of §6 — a
version, cipher name, ciphertext, cipher parameters (IV), KDF name and
parameters (salt), and a MAC.  The loader passes it through opaquely to
`decryptKey`. -/
structure EncryptedKeyJSON where
  version : Nat
  cipher : String
  ciphertext : List Nat
  cipherIV : List Nat
  kdf : String
  kdfSalt : List Nat
  mac : List Nat

/-- Modelled from the spec: the external collaborators of the keystore
loaders — file I/O, JSON parsing, the §4.2 encrypted-JSON `decryptKey`
(KDF, decrypt, MAC check) and the armored-text
`mintkey.UnarmorDecryptPrivKey`.  `none` embeds each one's error return,
so every theorem below quantifies over their behaviour. -/
structure KeystoreEnv where
  readFile : String → Option (List Nat)
  jsonUnmarshal : List Nat → Option EncryptedKeyJSON
  decryptKey : EncryptedKeyJSON → String → Option (List Nat)
  unarmorDecryptPrivKey : List Nat → String → Option (List Nat)

/-- Embeds `keyManager.recoveryFromKeyStore`, statement by statement; the result is
the receiver's state after the call together with the returned error, so a
partial mutation before an error exit would be visible here. -/
def recoveryFromKeyStore (env : KeystoreEnv) (k : KMState)
    (keystoreFile auth : String) : KMState × Option KeyErr :=
  if auth = "" then (k, some .passwordMissing)
  else
    match env.readFile keystoreFile with
    | none => (k, some .fileReadErr)
    | some keyJson =>
      match env.jsonUnmarshal keyJson with
      | none => (k, some .jsonUnmarshalErr)
      | some encryptedKey =>
        match env.decryptKey encryptedKey auth with
        | none => (k, some .decryptFailed)
        | some keyBytes =>
          if keyBytes.length ≠ 32 then (k, some .keyLenNot32)
          else
            ({ privKey := some (keyBytes.take 32),
               addr := some (deriveAddr (keyBytes.take 32)) }, none)

/-- Embeds `keyManager.ImportKeystore`, statement by statement, like
`recoveryFromKeyStore`. -/
def ImportKeystore (env : KeystoreEnv) (k : KMState)
    (keystoreFile passphrase : String) : KMState × Option KeyErr :=
  if passphrase = "" then (k, some .passwordMissing)
  else
    match env.readFile keystoreFile with
    | none => (k, some .fileReadErr)
    | some armor =>
      match env.unarmorDecryptPrivKey armor passphrase with
      | none => (k, some .importFailed)
      | some privKey =>
        ({ privKey := some privKey, addr := some (deriveAddr privKey) }, none)

/-! ## Signing (`keyManager.Sign` / `makeSignature`) -/

/-- Modelled from the spec: the fee of a sign message (amount list and gas
limit), carried through the signing pipeline untouched. -/
structure StdFee where
  amount : List (String × Nat)
  gas : Nat
deriving DecidableEq

/-- Modelled from the spec: the canonical ordered field set of
`tx.StdSignMsg` — chain id, account and sequence numbers, fee, messages
and memo; messages stay opaque byte strings. -/
structure StdSignMsg where
  chainID : String
  accNum : Nat
  seqNum : Nat
  fee : StdFee
  msgs : List (List Nat)
  memo : String
deriving DecidableEq

/-- Embeds `auth.StdSignature`: the signer's public key together with the raw
signature bytes. -/
structure StdSignature where
  pubKey : List Nat
  signature : List Nat
deriving DecidableEq

/-- Embeds `auth.StdTx` as `auth.NewStdTx` assembles it: messages, fee, the
signature list and the memo. -/
structure StdTx where
  msgs : List (List Nat)
  fee : StdFee
  signatures : List StdSignature
  memo : String
deriving DecidableEq

/-- Signing error: the raw signer's failure or the marshaller's failure. -/
inductive SignErr
  | nilKeyPanic
  | rawSignErr
  | marshalErr
deriving DecidableEq

/-- Modelled from the spec: the external collaborators of `Sign` — the
canonical serialization `msg.Bytes()` (deterministic), the raw secp256k1
signer `privKey.Sign`, and the length-prefixed amino marshalling
`tx.Cdc.MarshalBinaryLengthPrefixed`. -/
structure SignEnv where
  signBytes : StdSignMsg → List Nat
  rawSign : List Nat → List Nat → Option (List Nat)
  marshalTx : StdTx → Option (List Nat)

/-- Embeds `keyManager.makeSignature`: raw-sign the canonical bytes of the message
and wrap the manager's public key with the signature bytes.  A `nil`
receiver key would panic in Go; that abort is the `nilKeyPanic` error. -/
def makeSignature (env : SignEnv) (k : KMState) (msg : StdSignMsg) :
    Except SignErr StdSignature :=
  match k.privKey with
  | none => .error .nilKeyPanic
  | some sk =>
    match env.rawSign sk (env.signBytes msg) with
    | none => .error .rawSignErr
    | some sigBytes => .ok { pubKey := pubKeyBytesOf sk, signature := sigBytes }

/-- Embeds `auth.NewStdTx`: pure assembly of messages, fee, signatures and memo
into a `StdTx`. -/
def NewStdTx (msgs : List (List Nat)) (fee : StdFee) (sigs : List StdSignature)
    (memo : String) : StdTx :=
  { msgs := msgs, fee := fee, signatures := sigs, memo := memo }

/-- Embeds `keyManager.Sign`: make the signature, assemble the `StdTx` via
`auth.NewStdTx` with that single signature, and marshal it
length-prefixed; each failure aborts the whole call. -/
def kmSign (env : SignEnv) (k : KMState) (msg : StdSignMsg) :
    Except SignErr (List Nat) :=
  match makeSignature env k msg with
  | .error e => .error e
  | .ok sig =>
    match env.marshalTx (NewStdTx msg.msgs msg.fee [sig] msg.memo) with
    | none => .error .marshalErr
    | some bz => .ok bz

/-! ## The contract payload codec
(`Test_ContractCall` / `Test_ContractQuery` / `Test_QueryContractEvents`) -/

/-- Minimal lowercase hex digits of `n` (`%x`); the fuel argument only
bounds the recursion. -/
def hexNatAux : Nat → Nat → List Char → List Char
  | 0, _, acc => acc
  | fuel + 1, n, acc => if n = 0 then acc else hexNatAux fuel (n / 16) (hexDigitChar (n % 16) :: acc)

/-- Go `fmt.Sprintf` verb `%064x`: lowercase hex, zero-padded on the left
to 64 characters. -/
def fmt064x (n : Nat) : String :=
  let ds := if n = 0 then ['0'] else hexNatAux (n + 1) n []
  ⟨List.replicate (64 - ds.length) '0' ++ ds⟩

/-- Modelled from the spec: `hexutil.Encode` as the §4.5 dynamic-blob
encoding uses it — the plain hex text of the argument's bytes (here the
ASCII bytes of a pubkey hex string, 0x42 = 66 of them), right-padded into
the tail region by the template. -/
def hexuEncode (s : String) : String := hexEncode (s.data.map Char.toNat)

/-- The constants of `Test_ContractCall`. -/
def functionSig : String := "aaa88185"

/-- The from/to pubkey hex string blob argument (both arguments coincide in
the test). -/
def fromPubkeyHexString : String :=
  "02fc950f1e62b9b2b369448f422808af7d57dbd6ffc0fdbbf2f5849b847285eda8"

/-- The 20-byte address argument, as the test writes it into the template. -/
def fromAddrArg : String := "AC46A441FAA26708B7783EC48D8742C74C9F7927"

/-- The `recallType` integer argument. -/
def recallTypeArg : Nat := 1

/-- The `timestamp` integer argument. -/
def timestampArg : Nat := 100

/-- The `r` word argument. -/
def rHexString : String := "830f66a98feb664f312593f0c3fc9b19eb24d67baae894554c1f44ed3aad5a8e"

/-- The `s` word argument. -/
def sHexString : String := "0fa9a3e5b2a9356c887624750539753cdcc2934867503225e7af5608534444c4"

/-- The `v` integer argument. -/
def vArg : Nat := 0x1c

/-- The literal chunk of `payloadTemplate` between the selector and the
address: two offset words (0x100, 0x180) and the 24-zero pad of the
address word. -/
def payloadLit1 : String :=
  "00000000000000000000000000000000000000000000000000000000000001000000000000000000000000000000000000000000000000000000000000000180000000000000000000000000"

/-- The first blob length word (0x42 bytes) of `payloadTemplate`. -/
def payloadLit2 : String :=
  "0000000000000000000000000000000000000000000000000000000000000042"

/-- The chunk between the two blobs: the first blob's tail padding and the
second blob's length word (0x42 bytes). -/
def payloadLit3 : String :=
  "0000000000000000000000000000000000000000000000000000000000000000000000000000000000000000000000000000000000000000000000000042"

/-- The trailing tail padding of `payloadTemplate`. -/
def payloadLit4 : String :=
  "000000000000000000000000000000000000000000000000000000000000"

/-- The payload string `Test_ContractCall` builds: `fmt.Sprintf` of
`payloadTemplate` with the selector, address, `%064x`-formatted integers,
`r`/`s` words and the two hex-encoded pubkey-string blobs. -/
def contractPayloadStr : String :=
  functionSig ++ payloadLit1 ++ fromAddrArg ++ fmt064x recallTypeArg ++ fmt064x timestampArg ++
  rHexString ++ sHexString ++ fmt064x vArg ++ payloadLit2 ++ hexuEncode fromPubkeyHexString ++
  payloadLit3 ++ hexuEncode fromPubkeyHexString ++ payloadLit4

/-- The payload with the 8-character selector stripped. -/
def contractPayloadNoSelector : String := ⟨contractPayloadStr.data.drop 8⟩

/-- Failure of a log-field read.  `sliceOutOfRange` embeds the Go runtime
panic of a string slice expression past the end; `truncatedLog` is the
spec's §7 taxonomy name for the error a decode should raise, which the
code never produces. -/
inductive LogErr
  | sliceOutOfRange
  | truncatedLog
deriving DecidableEq

/-- Go string slicing `s[lo:hi]`: the substring when
`0 ≤ lo ≤ hi ≤ len(s)`, otherwise a runtime panic. -/
def goStringSlice (s : String) (lo hi : Nat) : Except LogErr String :=
  if lo ≤ hi ∧ hi ≤ s.data.length then .ok ⟨(s.data.take hi).drop lo⟩
  else .error .sliceOutOfRange

/-- The four fixed-offset field reads of `Test_ContractQuery` /
`Test_QueryContractEvents` on an event-log data string, in source order:
`item[128:192]`, `item[192:256]`, `item[320:452]`, `item[576:708]`. -/
def decodeEventFields (item : String) : Except LogErr (String × String × String × String) :=
  match goStringSlice item 128 192 with
  | .error e => .error e
  | .ok revokeTypeStr =>
    match goStringSlice item 192 256 with
    | .error e => .error e
    | .ok timestampStr =>
      match goStringSlice item 320 452 with
      | .error e => .error e
      | .ok fromPubkeyStr =>
        match goStringSlice item 576 708 with
        | .error e => .error e
        | .ok toPubkeyStr => .ok (revokeTypeStr, timestampStr, fromPubkeyStr, toPubkeyStr)

/-- Go `strconv.ParseUint(s, 16, 64)`: base-16 digits of either case, error
on an empty string, a bad digit, or overflow past `2 ^ 64 - 1`. -/
def parseUint16x64 (s : String) : Option Nat :=
  if s.data = [] then none
  else
    s.data.foldl
      (fun acc c =>
        match acc, hexDigitVal c with
        | some a, some d => if a * 16 + d < 2 ^ 64 then some (a * 16 + d) else none
        | _, _ => none)
      (some 0)

/-! ## Concrete fixtures used by the witnesses -/

/-- The example uncompressed public key from the `GetCompressedPubKey` doc
comment in `key.go`. -/
def docPubkeyStr : String :=
  "04b2bf9a87dd7cf1ad998721ffef00713a4d5fb2bae0316eea04268ae877a0bcacd41b5b363911a30c0254ca12148d48e3cd4562e3e4b5d8cd3e6d2107a69754e6"

/-- The 33-byte compressed form of `docPubkeyStr` (even y, so magic 2). -/
def docPubkeyCompressed : List Nat :=
  2 :: natToBytesBE 32 0xb2bf9a87dd7cf1ad998721ffef00713a4d5fb2bae0316eea04268ae877a0bcac

/-- The curve point of `docPubkeyStr`. -/
def docPubkeyPt : Pt :=
  ⟨0xb2bf9a87dd7cf1ad998721ffef00713a4d5fb2bae0316eea04268ae877a0bcac,
   0xd41b5b363911a30c0254ca12148d48e3cd4562e3e4b5d8cd3e6d2107a69754e6⟩

/-- The 65 raw bytes of `docPubkeyStr`. -/
def docPubkeyBytes : List Nat :=
  4 :: (natToBytesBE 32 docPubkeyPt.x ++ natToBytesBE 32 docPubkeyPt.y)

/-- A 32-byte private key of value 1: its public point is the base point. -/
def demoKeyBytes : List Nat := List.replicate 31 0 ++ [1]

/-- An arbitrary encrypted-keystore document for the witnesses. -/
def demoEncKey : EncryptedKeyJSON := ⟨3, "aes-128-ctr", [7], [8], "scrypt", [9], [10]⟩

/-- An environment whose collaborators all succeed, decrypting to
`demoKeyBytes`. -/
def envOk : KeystoreEnv :=
  ⟨fun _ => some [123], fun _ => some demoEncKey,
   fun _ _ => some demoKeyBytes, fun _ _ => some demoKeyBytes⟩

/-- An environment whose file read fails. -/
def envFail : KeystoreEnv := ⟨fun _ => none, fun _ => none, fun _ _ => none, fun _ _ => none⟩

/-- An already-initialized manager holding a key different from
`demoKeyBytes`. -/
def kInited : KMState := ⟨some (List.replicate 32 7), some []⟩

/-- A signing environment with fixed successful collaborators. -/
def envSig : SignEnv := ⟨fun _ => [9], fun _ _ => some [1, 2], fun _ => some [3, 4]⟩

/-- A manager initialized with `demoKeyBytes` for the signing witness. -/
def kSigner : KMState := ⟨some demoKeyBytes, some []⟩

/-- A concrete sign message for the signing witness. -/
def demoMsg : StdSignMsg := ⟨"nch-chain", 1, 2, ⟨[("unch", 5)], 100⟩, [[170]], "demo"⟩

/-! ## Elementary lemmas about the embedded primitives -/

theorem natToBytesBE_length (n x : Nat) : (natToBytesBE n x).length = n := by
  induction n generalizing x with
  | zero => rfl
  | succ m ih => simp [natToBytesBE, ih]

theorem bytesToNat_append_one (bs : List Nat) (b : Nat) :
    bytesToNat (bs ++ [b]) = bytesToNat bs * 256 + b := by
  simp [bytesToNat, List.foldl_append]

theorem bytesToNat_natToBytesBE (n x : Nat) (h : x < 256 ^ n) :
    bytesToNat (natToBytesBE n x) = x := by
  induction n generalizing x with
  | zero =>
    interval_cases x
    rfl
  | succ m ih =>
    have hdiv : x / 256 < 256 ^ m := by
      rw [Nat.div_lt_iff_lt_mul (by norm_num)]
      calc x < 256 ^ (m + 1) := h
        _ = 256 ^ m * 256 := by ring
    rw [natToBytesBE, bytesToNat_append_one, ih _ hdiv]
    omega

theorem sha256_length (bs : List Nat) : (sha256 bs).length = 32 := by
  simp [sha256, sha256Digest, natToBytesBE_length]

theorem natToBytesLE_length (n x : Nat) : (natToBytesLE n x).length = n := by
  induction n generalizing x with
  | zero => rfl
  | succ m ih => simp [natToBytesLE, ih]

theorem ripemd160_length (bs : List Nat) : (ripemd160 bs).length = 20 := by
  simp [ripemd160, natToBytesLE_length]

theorem powModAux_eq (fuel : Nat) : ∀ b e m : Nat, e < 2 ^ fuel →
    powModAux fuel b e m = b ^ e % m := by
  induction fuel with
  | zero =>
    intro b e m he
    interval_cases e
    simp [powModAux]
  | succ f ih =>
    intro b e m he
    by_cases h0 : e = 0
    · simp [powModAux, h0]
    · have hlt : e < 2 ^ f * 2 := by
        rw [← pow_succ]
        exact he
      have hdiv : e / 2 < 2 ^ f := by omega
      have hrec := ih (b * b % m) (e / 2) m hdiv
      have hbb : (b * b % m) ^ (e / 2) % m = b ^ (2 * (e / 2)) % m := by
        rw [← Nat.pow_mod, pow_mul, pow_two]
      by_cases hpar : e % 2 = 1
      · have he2 : 2 * (e / 2) + 1 = e := by omega
        calc powModAux (f + 1) b e m
            = powModAux f (b * b % m) (e / 2) m * (b % m) % m := by
              simp only [powModAux, if_neg h0, if_pos hpar]
          _ = b ^ (2 * (e / 2)) % m * (b % m) % m := by rw [hrec, hbb]
          _ = b ^ (2 * (e / 2)) * b % m := by rw [← Nat.mul_mod]
          _ = b ^ e % m := by rw [← pow_succ, he2]
      · have he2 : 2 * (e / 2) = e := by omega
        calc powModAux (f + 1) b e m
            = powModAux f (b * b % m) (e / 2) m := by
              simp only [powModAux, if_neg h0, if_neg hpar]
          _ = b ^ e % m := by rw [hrec, hbb, he2]

theorem powMod_eq (b e m : Nat) : powMod b e m = b ^ e % m :=
  powModAux_eq (e + 1) b e m
    (Nat.lt_of_lt_of_le (Nat.lt_two_pow e) (Nat.pow_le_pow_right (by norm_num) (Nat.le_succ e)))

theorem powMod_lt (b e m : Nat) (hm : 0 < m) : powMod b e m < m := by
  rw [powMod_eq]
  exact Nat.mod_lt _ hm

/-! ## Primality of the secp256k1 field prime
A Pratt certificate chain checked through `lucas_primality`; every modular
power is computed by `powMod` so the kernel can evaluate it. -/

theorem zmod_pow_natCast (n g e : Nat) :
    ((g : Nat) : ZMod n) ^ e = ((powMod g e n : Nat) : ZMod n) := by
  rw [powMod_eq, ZMod.natCast_mod, Nat.cast_pow]

theorem zmod_pow_eq_one (n g e : Nat) (h : powMod g e n % n = 1 % n) :
    ((g : Nat) : ZMod n) ^ e = 1 := by
  rw [zmod_pow_natCast]
  calc ((powMod g e n : Nat) : ZMod n) = ((1 : Nat) : ZMod n) :=
        (ZMod.natCast_eq_natCast_iff' _ _ _).mpr h
    _ = 1 := Nat.cast_one

theorem zmod_pow_ne_one (n g e : Nat) (h : ¬ powMod g e n % n = 1 % n) :
    ((g : Nat) : ZMod n) ^ e ≠ 1 := by
  rw [zmod_pow_natCast]
  intro hc
  apply h
  refine (ZMod.natCast_eq_natCast_iff' _ _ _).mp ?_
  rw [hc]
  exact Nat.cast_one.symm

theorem prime_dvd_mul_cases {q a rest : Nat} (hq : q.Prime) (ha : a.Prime)
    (h : q ∣ a * rest) : q = a ∨ q ∣ rest :=
  (hq.dvd_mul.mp h).imp (fun hd => (Nat.prime_dvd_prime_iff_eq hq ha).mp hd) id

/-- Pratt certificate node: `1206781` is prime (witness `10`). -/
theorem pratt1206781 : Nat.Prime 1206781 := by
  have hfact : 1206781 - 1 = 2 * (2 * (3 * (5 * (20113)))) := by decide
  refine lucas_primality _ ((10 : Nat) : ZMod 1206781) (zmod_pow_eq_one _ _ _ (by decide)) ?_
  intro q hq hdvd
  rw [hfact] at hdvd
  rcases prime_dvd_mul_cases hq Nat.prime_two hdvd with rfl | hdvd
  · exact zmod_pow_ne_one _ _ _ (by decide)
  rcases prime_dvd_mul_cases hq Nat.prime_two hdvd with rfl | hdvd
  · exact zmod_pow_ne_one _ _ _ (by decide)
  rcases prime_dvd_mul_cases hq Nat.prime_three hdvd with rfl | hdvd
  · exact zmod_pow_ne_one _ _ _ (by decide)
  rcases prime_dvd_mul_cases hq (by norm_num) hdvd with rfl | hdvd
  · exact zmod_pow_ne_one _ _ _ (by decide)
  have hlast := (Nat.prime_dvd_prime_iff_eq hq (by norm_num)).mp hdvd
  subst hlast
  exact zmod_pow_ne_one _ _ _ (by decide)

/-- Pratt certificate node: `7240687` is prime (witness `3`). -/
theorem pratt7240687 : Nat.Prime 7240687 := by
  have hfact : 7240687 - 1 = 2 * (3 * (1206781)) := by decide
  refine lucas_primality _ ((3 : Nat) : ZMod 7240687) (zmod_pow_eq_one _ _ _ (by decide)) ?_
  intro q hq hdvd
  rw [hfact] at hdvd
  rcases prime_dvd_mul_cases hq Nat.prime_two hdvd with rfl | hdvd
  · exact zmod_pow_ne_one _ _ _ (by decide)
  rcases prime_dvd_mul_cases hq Nat.prime_three hdvd with rfl | hdvd
  · exact zmod_pow_ne_one _ _ _ (by decide)
  have hlast := (Nat.prime_dvd_prime_iff_eq hq pratt1206781).mp hdvd
  subst hlast
  exact zmod_pow_ne_one _ _ _ (by decide)

/-- Pratt certificate node: `13331831` is prime (witness `13`). -/
theorem pratt13331831 : Nat.Prime 13331831 := by
  have hfact : 13331831 - 1 = 2 * (5 * (971 * (1373))) := by decide
  refine lucas_primality _ ((13 : Nat) : ZMod 13331831) (zmod_pow_eq_one _ _ _ (by decide)) ?_
  intro q hq hdvd
  rw [hfact] at hdvd
  rcases prime_dvd_mul_cases hq Nat.prime_two hdvd with rfl | hdvd
  · exact zmod_pow_ne_one _ _ _ (by decide)
  rcases prime_dvd_mul_cases hq (by norm_num) hdvd with rfl | hdvd
  · exact zmod_pow_ne_one _ _ _ (by decide)
  rcases prime_dvd_mul_cases hq (by norm_num) hdvd with rfl | hdvd
  · exact zmod_pow_ne_one _ _ _ (by decide)
  have hlast := (Nat.prime_dvd_prime_iff_eq hq (by norm_num)).mp hdvd
  subst hlast
  exact zmod_pow_ne_one _ _ _ (by decide)

/-- Pratt certificate node: `107590001` is prime (witness `3`). -/
theorem pratt107590001 : Nat.Prime 107590001 := by
  have hfact : 107590001 - 1 = 2 * (2 * (2 * (2 * (5 * (5 * (5 * (5 * (7 * (29 * (53)))))))))) := by decide
  refine lucas_primality _ ((3 : Nat) : ZMod 107590001) (zmod_pow_eq_one _ _ _ (by decide)) ?_
  intro q hq hdvd
  rw [hfact] at hdvd
  rcases prime_dvd_mul_cases hq Nat.prime_two hdvd with rfl | hdvd
  · exact zmod_pow_ne_one _ _ _ (by decide)
  rcases prime_dvd_mul_cases hq Nat.prime_two hdvd with rfl | hdvd
  · exact zmod_pow_ne_one _ _ _ (by decide)
  rcases prime_dvd_mul_cases hq Nat.prime_two hdvd with rfl | hdvd
  · exact zmod_pow_ne_one _ _ _ (by decide)
  rcases prime_dvd_mul_cases hq Nat.prime_two hdvd with rfl | hdvd
  · exact zmod_pow_ne_one _ _ _ (by decide)
  rcases prime_dvd_mul_cases hq (by norm_num) hdvd with rfl | hdvd
  · exact zmod_pow_ne_one _ _ _ (by decide)
  rcases prime_dvd_mul_cases hq (by norm_num) hdvd with rfl | hdvd
  · exact zmod_pow_ne_one _ _ _ (by decide)
  rcases prime_dvd_mul_cases hq (by norm_num) hdvd with rfl | hdvd
  · exact zmod_pow_ne_one _ _ _ (by decide)
  rcases prime_dvd_mul_cases hq (by norm_num) hdvd with rfl | hdvd
  · exact zmod_pow_ne_one _ _ _ (by decide)
  rcases prime_dvd_mul_cases hq (by norm_num) hdvd with rfl | hdvd
  · exact zmod_pow_ne_one _ _ _ (by decide)
  rcases prime_dvd_mul_cases hq (by norm_num) hdvd with rfl | hdvd
  · exact zmod_pow_ne_one _ _ _ (by decide)
  have hlast := (Nat.prime_dvd_prime_iff_eq hq (by norm_num)).mp hdvd
  subst hlast
  exact zmod_pow_ne_one _ _ _ (by decide)

/-- Pratt certificate node: `173378833005251801` is prime (witness `6`). -/
theorem pratt173378833005251801 : Nat.Prime 173378833005251801 := by
  have hfact : 173378833005251801 - 1 = 2 * (2 * (2 * (5 * (5 * (2621 * (24809 * (13331831))))))) := by decide
  refine lucas_primality _ ((6 : Nat) : ZMod 173378833005251801) (zmod_pow_eq_one _ _ _ (by decide)) ?_
  intro q hq hdvd
  rw [hfact] at hdvd
  rcases prime_dvd_mul_cases hq Nat.prime_two hdvd with rfl | hdvd
  · exact zmod_pow_ne_one _ _ _ (by decide)
  rcases prime_dvd_mul_cases hq Nat.prime_two hdvd with rfl | hdvd
  · exact zmod_pow_ne_one _ _ _ (by decide)
  rcases prime_dvd_mul_cases hq Nat.prime_two hdvd with rfl | hdvd
  · exact zmod_pow_ne_one _ _ _ (by decide)
  rcases prime_dvd_mul_cases hq (by norm_num) hdvd with rfl | hdvd
  · exact zmod_pow_ne_one _ _ _ (by decide)
  rcases prime_dvd_mul_cases hq (by norm_num) hdvd with rfl | hdvd
  · exact zmod_pow_ne_one _ _ _ (by decide)
  rcases prime_dvd_mul_cases hq (by norm_num) hdvd with rfl | hdvd
  · exact zmod_pow_ne_one _ _ _ (by decide)
  rcases prime_dvd_mul_cases hq (by norm_num) hdvd with rfl | hdvd
  · exact zmod_pow_ne_one _ _ _ (by decide)
  have hlast := (Nat.prime_dvd_prime_iff_eq hq pratt13331831).mp hdvd
  subst hlast
  exact zmod_pow_ne_one _ _ _ (by decide)

/-- Pratt certificate node: `22149492674086928081353` is prime (witness `5`). -/
theorem pratt22149492674086928081353 : Nat.Prime 22149492674086928081353 := by
  have hfact : 22149492674086928081353 - 1 = 2 * (2 * (2 * (3 * (5323 * (173378833005251801))))) := by decide
  refine lucas_primality _ ((5 : Nat) : ZMod 22149492674086928081353) (zmod_pow_eq_one _ _ _ (by decide)) ?_
  intro q hq hdvd
  rw [hfact] at hdvd
  rcases prime_dvd_mul_cases hq Nat.prime_two hdvd with rfl | hdvd
  · exact zmod_pow_ne_one _ _ _ (by decide)
  rcases prime_dvd_mul_cases hq Nat.prime_two hdvd with rfl | hdvd
  · exact zmod_pow_ne_one _ _ _ (by decide)
  rcases prime_dvd_mul_cases hq Nat.prime_two hdvd with rfl | hdvd
  · exact zmod_pow_ne_one _ _ _ (by decide)
  rcases prime_dvd_mul_cases hq Nat.prime_three hdvd with rfl | hdvd
  · exact zmod_pow_ne_one _ _ _ (by decide)
  rcases prime_dvd_mul_cases hq (by norm_num) hdvd with rfl | hdvd
  · exact zmod_pow_ne_one _ _ _ (by decide)
  have hlast := (Nat.prime_dvd_prime_iff_eq hq pratt173378833005251801).mp hdvd
  subst hlast
  exact zmod_pow_ne_one _ _ _ (by decide)

/-- Pratt certificate node: `132896956044521568488119` is prime (witness `6`). -/
theorem pratt132896956044521568488119 : Nat.Prime 132896956044521568488119 := by
  have hfact : 132896956044521568488119 - 1 = 2 * (3 * (22149492674086928081353)) := by decide
  refine lucas_primality _ ((6 : Nat) : ZMod 132896956044521568488119) (zmod_pow_eq_one _ _ _ (by decide)) ?_
  intro q hq hdvd
  rw [hfact] at hdvd
  rcases prime_dvd_mul_cases hq Nat.prime_two hdvd with rfl | hdvd
  · exact zmod_pow_ne_one _ _ _ (by decide)
  rcases prime_dvd_mul_cases hq Nat.prime_three hdvd with rfl | hdvd
  · exact zmod_pow_ne_one _ _ _ (by decide)
  have hlast := (Nat.prime_dvd_prime_iff_eq hq pratt22149492674086928081353).mp hdvd
  subst hlast
  exact zmod_pow_ne_one _ _ _ (by decide)

/-- Pratt certificate node: `255515944373312847190720520512484175977` is prime (witness `3`). -/
theorem pratt255515944373312847190720520512484175977 : Nat.Prime 255515944373312847190720520512484175977 := by
  have hfact : 255515944373312847190720520512484175977 - 1 = 2 * (2 * (2 * (7 * (7 * (11 * (1627 * (2657 * (4423 * (41201 * (96557 * (7240687 * (107590001)))))))))))) := by decide
  refine lucas_primality _ ((3 : Nat) : ZMod 255515944373312847190720520512484175977) (zmod_pow_eq_one _ _ _ (by decide)) ?_
  intro q hq hdvd
  rw [hfact] at hdvd
  rcases prime_dvd_mul_cases hq Nat.prime_two hdvd with rfl | hdvd
  · exact zmod_pow_ne_one _ _ _ (by decide)
  rcases prime_dvd_mul_cases hq Nat.prime_two hdvd with rfl | hdvd
  · exact zmod_pow_ne_one _ _ _ (by decide)
  rcases prime_dvd_mul_cases hq Nat.prime_two hdvd with rfl | hdvd
  · exact zmod_pow_ne_one _ _ _ (by decide)
  rcases prime_dvd_mul_cases hq (by norm_num) hdvd with rfl | hdvd
  · exact zmod_pow_ne_one _ _ _ (by decide)
  rcases prime_dvd_mul_cases hq (by norm_num) hdvd with rfl | hdvd
  · exact zmod_pow_ne_one _ _ _ (by decide)
  rcases prime_dvd_mul_cases hq (by norm_num) hdvd with rfl | hdvd
  · exact zmod_pow_ne_one _ _ _ (by decide)
  rcases prime_dvd_mul_cases hq (by norm_num) hdvd with rfl | hdvd
  · exact zmod_pow_ne_one _ _ _ (by decide)
  rcases prime_dvd_mul_cases hq (by norm_num) hdvd with rfl | hdvd
  · exact zmod_pow_ne_one _ _ _ (by decide)
  rcases prime_dvd_mul_cases hq (by norm_num) hdvd with rfl | hdvd
  · exact zmod_pow_ne_one _ _ _ (by decide)
  rcases prime_dvd_mul_cases hq (by norm_num) hdvd with rfl | hdvd
  · exact zmod_pow_ne_one _ _ _ (by decide)
  rcases prime_dvd_mul_cases hq (by norm_num) hdvd with rfl | hdvd
  · exact zmod_pow_ne_one _ _ _ (by decide)
  rcases prime_dvd_mul_cases hq pratt7240687 hdvd with rfl | hdvd
  · exact zmod_pow_ne_one _ _ _ (by decide)
  have hlast := (Nat.prime_dvd_prime_iff_eq hq pratt107590001).mp hdvd
  subst hlast
  exact zmod_pow_ne_one _ _ _ (by decide)

/-- Pratt certificate node: `205115282021455665897114700593932402728804164701536103180137503955397371` is prime (witness `10`). -/
theorem pratt205115282021455665897114700593932402728804164701536103180137503955397371 : Nat.Prime 205115282021455665897114700593932402728804164701536103180137503955397371 := by
  have hfact : 205115282021455665897114700593932402728804164701536103180137503955397371 - 1 = 2 * (3 * (5 * (29 * (29 * (31 * (7723 * (132896956044521568488119 * (255515944373312847190720520512484175977)))))))) := by decide
  refine lucas_primality _ ((10 : Nat) : ZMod 205115282021455665897114700593932402728804164701536103180137503955397371) (zmod_pow_eq_one _ _ _ (by decide)) ?_
  intro q hq hdvd
  rw [hfact] at hdvd
  rcases prime_dvd_mul_cases hq Nat.prime_two hdvd with rfl | hdvd
  · exact zmod_pow_ne_one _ _ _ (by decide)
  rcases prime_dvd_mul_cases hq Nat.prime_three hdvd with rfl | hdvd
  · exact zmod_pow_ne_one _ _ _ (by decide)
  rcases prime_dvd_mul_cases hq (by norm_num) hdvd with rfl | hdvd
  · exact zmod_pow_ne_one _ _ _ (by decide)
  rcases prime_dvd_mul_cases hq (by norm_num) hdvd with rfl | hdvd
  · exact zmod_pow_ne_one _ _ _ (by decide)
  rcases prime_dvd_mul_cases hq (by norm_num) hdvd with rfl | hdvd
  · exact zmod_pow_ne_one _ _ _ (by decide)
  rcases prime_dvd_mul_cases hq (by norm_num) hdvd with rfl | hdvd
  · exact zmod_pow_ne_one _ _ _ (by decide)
  rcases prime_dvd_mul_cases hq (by norm_num) hdvd with rfl | hdvd
  · exact zmod_pow_ne_one _ _ _ (by decide)
  rcases prime_dvd_mul_cases hq pratt132896956044521568488119 hdvd with rfl | hdvd
  · exact zmod_pow_ne_one _ _ _ (by decide)
  have hlast := (Nat.prime_dvd_prime_iff_eq hq pratt255515944373312847190720520512484175977).mp hdvd
  subst hlast
  exact zmod_pow_ne_one _ _ _ (by decide)

/-- Pratt certificate node: `115792089237316195423570985008687907853269984665640564039457584007908834671663` is prime (witness `3`). -/
theorem pratt115792089237316195423570985008687907853269984665640564039457584007908834671663 : Nat.Prime 115792089237316195423570985008687907853269984665640564039457584007908834671663 := by
  have hfact : 115792089237316195423570985008687907853269984665640564039457584007908834671663 - 1 = 2 * (3 * (7 * (13441 * (205115282021455665897114700593932402728804164701536103180137503955397371)))) := by decide
  refine lucas_primality _ ((3 : Nat) : ZMod 115792089237316195423570985008687907853269984665640564039457584007908834671663) (zmod_pow_eq_one _ _ _ (by decide)) ?_
  intro q hq hdvd
  rw [hfact] at hdvd
  rcases prime_dvd_mul_cases hq Nat.prime_two hdvd with rfl | hdvd
  · exact zmod_pow_ne_one _ _ _ (by decide)
  rcases prime_dvd_mul_cases hq Nat.prime_three hdvd with rfl | hdvd
  · exact zmod_pow_ne_one _ _ _ (by decide)
  rcases prime_dvd_mul_cases hq (by norm_num) hdvd with rfl | hdvd
  · exact zmod_pow_ne_one _ _ _ (by decide)
  rcases prime_dvd_mul_cases hq (by norm_num) hdvd with rfl | hdvd
  · exact zmod_pow_ne_one _ _ _ (by decide)
  have hlast := (Nat.prime_dvd_prime_iff_eq hq pratt205115282021455665897114700593932402728804164701536103180137503955397371).mp hdvd
  subst hlast
  exact zmod_pow_ne_one _ _ _ (by decide)

/-- The secp256k1 field prime is prime. -/
theorem secpP_prime : Nat.Prime secpP := by
  have h : secpP = 115792089237316195423570985008687907853269984665640564039457584007908834671663 := by
    decide
  rw [h]
  exact pratt115792089237316195423570985008687907853269984665640564039457584007908834671663

instance secpPPrimeFact : Fact (Nat.Prime secpP) := ⟨secpP_prime⟩

/-! ## Correctness of btcec point decompression -/

theorem cast_sub_mod (p Y : Nat) (hY : Y < p) :
    (((p - Y) % p : Nat) : ZMod p) = -(Y : ZMod p) := by
  rw [ZMod.natCast_mod, Nat.cast_sub hY.le, ZMod.natCast_self, zero_sub]

/-- The square-root candidate `(Y²) ^ ((p + 1) / 4)` modulo a prime
`p ≡ 3 [MOD 4]` is `Y` or `p - Y`. -/
theorem sqrt_via_pow (p : Nat) [hp : Fact (Nat.Prime p)] (e Y : Nat)
    (he : 4 * e = p + 1) (hY : Y < p) :
    powMod (Y * Y % p) e p = Y ∨ powMod (Y * Y % p) e p = (p - Y) % p := by
  have hp0 : 0 < p := hp.out.pos
  have hlt : powMod (Y * Y % p) e p < p := powMod_lt _ _ _ hp0
  have hcast : ((powMod (Y * Y % p) e p : Nat) : ZMod p) = ((Y : ZMod p) * Y) ^ e := by
    rw [powMod_eq, ZMod.natCast_mod, Nat.cast_pow, ZMod.natCast_mod, Nat.cast_mul]
  have hsq : (((Y : ZMod p) * Y) ^ e) * (((Y : ZMod p) * Y) ^ e) = (Y : ZMod p) * Y := by
    by_cases hz : (Y : ZMod p) = 0
    · have he0 : e ≠ 0 := by
        intro h0
        rw [h0] at he
        omega
      rw [hz]
      simp [zero_pow he0]
    · have hfe : ((Y : ZMod p)) ^ (p - 1) = 1 := ZMod.pow_card_sub_one_eq_one hz
      have h4e : 4 * e = (p - 1) + 2 := by omega
      calc (((Y : ZMod p) * Y) ^ e) * (((Y : ZMod p) * Y) ^ e)
          = ((Y : ZMod p)) ^ (4 * e) := by ring
        _ = ((Y : ZMod p)) ^ ((p - 1) + 2) := by rw [h4e]
        _ = ((Y : ZMod p)) ^ (p - 1) * ((Y : ZMod p)) ^ 2 := by rw [pow_add]
        _ = (Y : ZMod p) * Y := by rw [hfe, one_mul, pow_two]
  have hor := mul_self_eq_mul_self_iff.mp hsq
  rcases hor with h | h
  · left
    have hval := congrArg ZMod.val (hcast.trans h)
    rwa [ZMod.val_cast_of_lt hlt, ZMod.val_cast_of_lt hY] at hval
  · right
    have hneg : (((p - Y) % p : Nat) : ZMod p) = -(Y : ZMod p) := cast_sub_mod p Y hY
    have hmod : (p - Y) % p < p := Nat.mod_lt _ hp0
    have hval := congrArg ZMod.val (hcast.trans (h.trans hneg.symm))
    rwa [ZMod.val_cast_of_lt hlt, ZMod.val_cast_of_lt hmod] at hval

/-- Squaring is unchanged by the `p - Y` reflection. -/
theorem negRoot_sq (p Y : Nat) (hY : Y < p) :
    ((p - Y) % p) * ((p - Y) % p) % p = Y * Y % p := by
  have h1 : (((p - Y) % p * ((p - Y) % p) : Nat) : ZMod p) = ((Y * Y : Nat) : ZMod p) := by
    rw [Nat.cast_mul, Nat.cast_mul, cast_sub_mod p Y hY, neg_mul_neg]
  exact (ZMod.natCast_eq_natCast_iff' _ _ _).mp h1

theorem isOddN_eq_iff (a b : Nat) : (isOddN a = isOddN b) ↔ a % 2 = b % 2 := by
  unfold isOddN
  rcases Nat.mod_two_eq_zero_or_one a with ha | ha <;>
    rcases Nat.mod_two_eq_zero_or_one b with hb | hb <;>
    simp [ha, hb]

/-- btcec `decompressPoint` recovers the y-coordinate of every valid curve
point from its x-coordinate and parity bit. -/
theorem decompress_of_valid (X Y : Nat) (hY : Y < secpP)
    (hcurve : Y * Y % secpP = (X * X % secpP * X + 7) % secpP) :
    decompressPoint X (isOddN Y) = some Y := by
  have hp0 : (0 : Nat) < secpP := by decide
  have hoddp : secpP % 2 = 1 := by decide
  have he : 4 * ((secpP + 1) / 4) = secpP + 1 := by decide
  have hroot := sqrt_via_pow secpP ((secpP + 1) / 4) Y he hY
  rw [hcurve] at hroot
  simp only [decompressPoint]
  rcases hroot with hA | hB
  · rw [hA, if_neg (not_not_intro hcurve)]
    simp
  · by_cases hz : Y = 0
    · subst hz
      have hB0 : powMod ((X * X % secpP * X + 7) % secpP) ((secpP + 1) / 4) secpP = 0 := by
        rw [hB, Nat.sub_zero, Nat.mod_self]
      rw [hB0, if_neg (not_not_intro hcurve)]
      simp
    · have hlt : secpP - Y < secpP := by omega
      have hmodY : (secpP - Y) % secpP = secpP - Y := Nat.mod_eq_of_lt hlt
      rw [hmodY] at hB
      have hsqY : (secpP - Y) * (secpP - Y) % secpP = (X * X % secpP * X + 7) % secpP := by
        have := negRoot_sq secpP Y hY
        rw [hmodY] at this
        rw [this, hcurve]
      rw [hB, if_neg (not_not_intro hsqY)]
      have hparne : ¬ (isOddN (secpP - Y) = isOddN Y) := by
        rw [isOddN_eq_iff]
        omega
      rw [if_neg hparne]
      have hfneg : fneg (secpP - Y) = Y := by
        unfold fneg
        rw [hmodY]
        have hs : secpP - (secpP - Y) = Y := by omega
        rw [hs, Nat.mod_eq_of_lt hY]
      rw [hfneg, if_pos rfl]

/-! ## Inversion of `parsePubKey` -/

theorem parsePubKey_inv (bs : List Nat) (P : Pt) (h : parsePubKey bs = some P) :
    parsePubKeyRaw bs = some P ∧ P.x < secpP ∧ P.y < secpP ∧ onCurve P.x P.y = true := by
  unfold parsePubKey at h
  cases hr : parsePubKeyRaw bs with
  | none => rw [hr] at h; exact absurd h (by simp)
  | some Q =>
    rw [hr] at h
    dsimp only at h
    by_cases h1 : Q.x ≥ secpP
    · rw [if_pos h1] at h
      exact absurd h (by simp)
    · rw [if_neg h1] at h
      by_cases h2 : Q.y ≥ secpP
      · rw [if_pos h2] at h
        exact absurd h (by simp)
      · rw [if_neg h2] at h
        by_cases h3 : onCurve Q.x Q.y = true
        · rw [if_neg (by simp [h3])] at h
          obtain rfl := Option.some.inj h
          exact ⟨rfl, by omega, by omega, h3⟩
        · rw [if_pos (by simpa using h3)] at h
          exact absurd h (by simp)

theorem parse65_shape (b0 : Nat) (rest : List Nat) (P : Pt)
    (hlen : rest.length = 64)
    (hr : parsePubKeyRaw (b0 :: rest) = some P) :
    P.x = bytesToNat (rest.take 32) ∧ P.y = bytesToNat (rest.drop 32) := by
  simp only [parsePubKeyRaw] at hr
  have hL : (b0 :: rest).length = 65 := by simp [hlen]
  rw [if_pos hL] at hr
  by_cases hf : b0 - b0 % 2 ≠ 4 ∧ b0 - b0 % 2 ≠ 6
  · rw [if_pos hf] at hr
    exact absurd hr (by simp)
  · rw [if_neg hf] at hr
    by_cases hh : b0 - b0 % 2 = 6 ∧ isOddN b0 ≠ isOddN (bytesToNat (rest.drop 32))
    · rw [if_pos hh] at hr
      exact absurd hr (by simp)
    · rw [if_neg hh] at hr
      obtain rfl := Option.some.inj hr
      exact ⟨rfl, rfl⟩

theorem hexDigitVal_le (c : Char) (v : Nat) (h : hexDigitVal c = some v) : v ≤ 15 := by
  unfold hexDigitVal at h
  split_ifs at h with h1 h2 h3 <;> injection h with hv <;> omega

theorem hexDecodeChars_lt : ∀ (cs : List Char) (bs : List Nat),
    hexDecodeChars cs = some bs → ∀ b ∈ bs, b < 256
  | [], bs, h, b, hb => by
    rw [hexDecodeChars] at h
    obtain rfl := Option.some.inj h
    simp at hb
  | [c], bs, h, b, hb => by
    rw [hexDecodeChars] at h
    exact absurd h (by simp)
  | hi :: lo :: rest, bs, h, b, hb => by
    rw [hexDecodeChars] at h
    cases hhi : hexDigitVal hi with
    | none => rw [hhi] at h; exact absurd h (by simp)
    | some vh =>
      cases hlo : hexDigitVal lo with
      | none => rw [hhi, hlo] at h; exact absurd h (by simp)
      | some vl =>
        cases hrest : hexDecodeChars rest with
        | none => rw [hhi, hlo, hrest] at h; exact absurd h (by simp)
        | some tl =>
          rw [hhi, hlo, hrest] at h
          obtain rfl := Option.some.inj h
          rcases List.mem_cons.mp hb with rfl | htl
          · have h1 := hexDigitVal_le hi vh hhi
            have h2 := hexDigitVal_le lo vl hlo
            omega
          · exact hexDecodeChars_lt rest tl hrest b htl

theorem hexDecode_lt (s : String) (bs : List Nat) (h : hexDecode s = some bs) :
    ∀ b ∈ bs, b < 256 :=
  hexDecodeChars_lt s.data bs h

theorem natToBytesBE_bytesToNat : ∀ (l : List Nat), (∀ b ∈ l, b < 256) →
    natToBytesBE l.length (bytesToNat l) = l := by
  intro l
  induction l using List.reverseRecOn with
  | nil => intro _; rfl
  | append_singleton ys b ih =>
    intro hb
    have hblt : b < 256 := hb b (by simp)
    have hys : ∀ x ∈ ys, x < 256 := fun x hx => hb x (by simp [hx])
    rw [List.length_append, List.length_singleton, bytesToNat_append_one]
    show natToBytesBE (ys.length + 1) (bytesToNat ys * 256 + b) = ys ++ [b]
    rw [natToBytesBE]
    have hdiv : (bytesToNat ys * 256 + b) / 256 = bytesToNat ys := by
      omega
    have hmod : (bytesToNat ys * 256 + b) % 256 = b := by
      omega
    rw [hdiv, hmod, ih hys]

/-- Re-parsing a compressed serialization recovers the same point. -/
theorem parse_serializeCompressed (P : Pt) (hx : P.x < secpP) (hy : P.y < secpP)
    (hc : onCurve P.x P.y = true) :
    parsePubKey (serializeCompressed P) = some P := by
  have h256 : secpP < 256 ^ 32 := by decide
  have hxlt : P.x < 256 ^ 32 := lt_trans hx h256
  have hxbytes : bytesToNat (natToBytesBE 32 P.x) = P.x := bytesToNat_natToBytesBE 32 P.x hxlt
  have hlen32 : (natToBytesBE 32 P.x).length = 32 := natToBytesBE_length _ _
  have htake : (natToBytesBE 32 P.x).take 32 = natToBytesBE 32 P.x :=
    List.take_of_length_le (by simp [hlen32])
  have hcurveN : P.y * P.y % secpP = (P.x * P.x % secpP * P.x + 7) % secpP := by
    simpa [onCurve] using hc
  have hdec := decompress_of_valid P.x P.y hy hcurveN
  have hbranch : parseCompressedBranch P.x (isOddN P.y) = some P := by
    unfold parseCompressedBranch
    rw [hdec]
  have hraw : parsePubKeyRaw (serializeCompressed P) = some P := by
    by_cases hodd : isOddN P.y = true
    · have hser : serializeCompressed P = 3 :: natToBytesBE 32 P.x := by
        simp [serializeCompressed, hodd]
      have hpar : isOddN 3 = isOddN P.y := by rw [hodd]; decide
      rw [hser]
      simp only [parsePubKeyRaw]
      have hL : (3 :: natToBytesBE 32 P.x).length = 33 := by simp [hlen32]
      rw [if_neg (by simp [hL]), if_pos hL, if_neg (by decide), htake, hxbytes, hpar, hbranch]
    · have hser : serializeCompressed P = 2 :: natToBytesBE 32 P.x := by
        simp [serializeCompressed, hodd]
      have hoddY : isOddN P.y = false := by
        simpa using hodd
      have hpar : isOddN 2 = isOddN P.y := by rw [hoddY]; decide
      rw [hser]
      simp only [parsePubKeyRaw]
      have hL : (2 :: natToBytesBE 32 P.x).length = 33 := by simp [hlen32]
      rw [if_neg (by simp [hL]), if_pos hL, if_neg (by decide), htake, hxbytes, hpar, hbranch]
  unfold parsePubKey
  rw [hraw]
  dsimp only
  rw [if_neg (by omega), if_neg (by omega), if_neg (by simp [hc])]

/-! ## Claim theorems -/

set_option maxRecDepth 1000000

/-- C1: for every hex string accepted by `GetCompressedPubKey` (a valid
uncompressed public key), `GetCompressedAddress` returns exactly
`RIPEMD160(SHA256(compressed key))`, the compressed form is 33 bytes, and
the address is 20 bytes. -/
theorem c1_compressed_address (s : String) (pk : List Nat)
    (h : GetCompressedPubKey s = some pk) :
    GetCompressedAddress s = some (ripemd160 (sha256 pk)) ∧
    pk.length = 33 ∧ (ripemd160 (sha256 pk)).length = 20 := by
  refine ⟨?_, ?_, ripemd160_length _⟩
  · rw [GetCompressedAddress, h]
    rfl
  · unfold GetCompressedPubKey at h
    obtain ⟨bs, hbs, hrest⟩ := Option.bind_eq_some.mp h
    obtain ⟨P, hP, hser⟩ := Option.map_eq_some'.mp hrest
    rw [← hser]
    simp [serializeCompressed, natToBytesBE_length]

/-- C1 witness: the doc-comment example key of `key.go`, with its concrete
compressed form and address. -/
theorem c1_witness :
    GetCompressedPubKey docPubkeyStr = some docPubkeyCompressed ∧
    (GetCompressedAddress docPubkeyStr = some (ripemd160 (sha256 docPubkeyCompressed)) ∧
     docPubkeyCompressed.length = 33 ∧
     (ripemd160 (sha256 docPubkeyCompressed)).length = 20) ∧
    GetCompressedAddress docPubkeyStr =
      some [0x4a, 0xaf, 0x58, 0x5d, 0x3d, 0xe2, 0x00, 0x8d, 0x8c, 0x88,
            0x2b, 0x8d, 0x22, 0x70, 0xf9, 0xbd, 0xda, 0xdc, 0x50, 0x9c] :=
  ⟨by decide, c1_compressed_address docPubkeyStr docPubkeyCompressed (by decide), by decide⟩

/-- C2 counterexample: on the payload string the worked example encodes,
the documented ranges recover neither the integers (`recallType` 1,
`timestamp` 100) nor the blobs — every piece sits 8 characters (the
selector) plus, for three of the four fields, one or more words away. -/
theorem c2_counterexample :
    ¬ ((goStringSlice contractPayloadStr 128 192).toOption.bind parseUint16x64
          = some recallTypeArg ∧
       (goStringSlice contractPayloadStr 192 256).toOption.bind parseUint16x64
          = some timestampArg ∧
       goStringSlice contractPayloadStr 320 452 = .ok (hexuEncode fromPubkeyHexString) ∧
       goStringSlice contractPayloadStr 576 708 = .ok (hexuEncode fromPubkeyHexString)) := by
  decide

/-- C2 amended: encoding produces the exact worked-example hex string, and
on the selector-stripped payload the round-trip holds at the true offsets:
`[192,256)` parses to `recallType`, `[256,320)` to `timestamp`, and the
blobs sit at `[576,708)` and `[832,964)`. -/
theorem c2_payload_golden :
    contractPayloadStr =
      "aaa8818500000000000000000000000000000000000000000000000000000000000001000000000000000000000000000000000000000000000000000000000000000180000000000000000000000000AC46A441FAA26708B7783EC48D8742C74C9F792700000000000000000000000000000000000000000000000000000000000000010000000000000000000000000000000000000000000000000000000000000064830f66a98feb664f312593f0c3fc9b19eb24d67baae894554c1f44ed3aad5a8e0fa9a3e5b2a9356c887624750539753cdcc2934867503225e7af5608534444c4000000000000000000000000000000000000000000000000000000000000001c00000000000000000000000000000000000000000000000000000000000000423032666339353066316536326239623262333639343438663432323830386166376435376462643666666330666462626632663538343962383437323835656461380000000000000000000000000000000000000000000000000000000000000000000000000000000000000000000000000000000000000000000000000042303266633935306631653632623962326233363934343866343232383038616637643537646264366666633066646262663266353834396238343732383565646138000000000000000000000000000000000000000000000000000000000000" ∧
    (goStringSlice contractPayloadNoSelector 192 256).toOption.bind parseUint16x64
      = some recallTypeArg ∧
    (goStringSlice contractPayloadNoSelector 256 320).toOption.bind parseUint16x64
      = some timestampArg ∧
    goStringSlice contractPayloadNoSelector 576 708 = .ok (hexuEncode fromPubkeyHexString) ∧
    goStringSlice contractPayloadNoSelector 832 964 = .ok (hexuEncode fromPubkeyHexString) :=
  ⟨by decide, by decide, by decide, by decide, by decide⟩

/-- C3 counterexample: on a log shorter than every requested range the
decode aborts with the out-of-range slice panic, not with a `TruncatedLog`
error. -/
theorem c3_counterexample :
    decodeEventFields "" = .error .sliceOutOfRange ∧
    decodeEventFields "" ≠ .error .truncatedLog := by
  exact ⟨by decide, by decide⟩

/-- C3 amended: for every log string shorter than 708 characters the decode
fails — by the Go slice-bounds panic, never by returning a short slice —
but the failure is the panic, not a `TruncatedLog` error value. -/
theorem c3_short_log_aborts (item : String) (h : item.data.length < 708) :
    decodeEventFields item = .error .sliceOutOfRange := by
  have h4 : ¬ (576 ≤ 708 ∧ 708 ≤ item.data.length) := by omega
  unfold decodeEventFields goStringSlice
  by_cases h1 : 128 ≤ 192 ∧ 192 ≤ item.data.length
  · rw [if_pos h1]
    by_cases h2 : 192 ≤ 256 ∧ 256 ≤ item.data.length
    · rw [if_pos h2]
      by_cases h3 : 320 ≤ 452 ∧ 452 ≤ item.data.length
      · rw [if_pos h3, if_neg h4]
      · rw [if_neg h3]
    · rw [if_neg h2]
  · rw [if_neg h1]

/-- C3 witness: the empty log is shorter than 708 characters and the decode
aborts with the slice panic. -/
theorem c3_witness :
    ("" : String).data.length < 708 ∧ decodeEventFields "" = .error .sliceOutOfRange :=
  ⟨by decide, c3_short_log_aborts "" (by decide)⟩

/-- C4 counterexample: on an already-initialized manager a second
successful load is not rejected — both loaders return no error and
overwrite the held key. -/
theorem c4_counterexample :
    (recoveryFromKeyStore envOk kInited "f" "pw").2 = none ∧
    (recoveryFromKeyStore envOk kInited "f" "pw").1.privKey = some demoKeyBytes ∧
    kInited.privKey ≠ some demoKeyBytes ∧
    (ImportKeystore envOk kInited "f" "pw").2 = none ∧
    (ImportKeystore envOk kInited "f" "pw").1.privKey = some demoKeyBytes := by
  refine ⟨by decide, by decide, by decide, by decide, by decide⟩

/-- C4 amended: each loader populates the private key and address on every
successful call, regardless of the manager's prior state — no
`AlreadyInitialized` guard exists, so a second call overwrites rather than
being rejected. -/
theorem c4_no_reinit_guard (env : KeystoreEnv) (k : KMState) (f a : String)
    (bs : List Nat) (ha : a ≠ "") (hr : env.readFile f = some bs) :
    (∀ ek b, env.jsonUnmarshal bs = some ek → env.decryptKey ek a = some b →
      b.length = 32 →
      recoveryFromKeyStore env k f a =
        ({ privKey := some b, addr := some (deriveAddr b) }, none)) ∧
    (∀ sk, env.unarmorDecryptPrivKey bs a = some sk →
      ImportKeystore env k f a =
        ({ privKey := some sk, addr := some (deriveAddr sk) }, none)) := by
  constructor
  · intro ek b hj hd hlen
    have htake : b.take 32 = b := by
      rw [← hlen]
      exact List.take_length b
    simp [recoveryFromKeyStore, if_neg ha, hr, hj, hd, hlen, htake]
  · intro sk hu
    simp [ImportKeystore, if_neg ha, hr, hu]

/-- C4 witness: the concrete successful environment applied to the
initialized manager `kInited`; both loaders succeed and install
`demoKeyBytes`. -/
theorem c4_witness :
    (("pw" : String) ≠ "" ∧ envOk.readFile "f" = some [123] ∧
     envOk.jsonUnmarshal [123] = some demoEncKey ∧
     envOk.decryptKey demoEncKey "pw" = some demoKeyBytes ∧
     demoKeyBytes.length = 32 ∧
     envOk.unarmorDecryptPrivKey [123] "pw" = some demoKeyBytes) ∧
    recoveryFromKeyStore envOk kInited "f" "pw" =
      ({ privKey := some demoKeyBytes, addr := some (deriveAddr demoKeyBytes) }, none) ∧
    ImportKeystore envOk kInited "f" "pw" =
      ({ privKey := some demoKeyBytes, addr := some (deriveAddr demoKeyBytes) }, none) :=
  ⟨⟨by decide, rfl, rfl, rfl, by decide, rfl⟩,
   (c4_no_reinit_guard envOk kInited "f" "pw" [123] (by decide) rfl).1
     demoEncKey demoKeyBytes rfl rfl (by decide),
   (c4_no_reinit_guard envOk kInited "f" "pw" [123] (by decide) rfl).2
     demoKeyBytes rfl⟩

/-- C5: when decryption succeeds with bytes of length other than 32 the
JSON-keystore load fails with the wrong-length error and the manager is
untouched; with exactly 32 bytes they become the private key and the
address is derived from its public key. -/
theorem c5_keylen_check (env : KeystoreEnv) (k : KMState) (f a : String)
    (bs : List Nat) (ek : EncryptedKeyJSON) (b : List Nat)
    (ha : a ≠ "") (hr : env.readFile f = some bs)
    (hj : env.jsonUnmarshal bs = some ek) (hd : env.decryptKey ek a = some b) :
    (b.length ≠ 32 → recoveryFromKeyStore env k f a = (k, some .keyLenNot32)) ∧
    (b.length = 32 →
      recoveryFromKeyStore env k f a =
        ({ privKey := some b, addr := some (deriveAddr b) }, none)) := by
  constructor
  · intro hlen
    simp [recoveryFromKeyStore, if_neg ha, hr, hj, hd, hlen]
  · intro hlen
    have htake : b.take 32 = b := by
      rw [← hlen]
      exact List.take_length b
    simp [recoveryFromKeyStore, if_neg ha, hr, hj, hd, hlen, htake]

/-- C5 witness: a 32-byte decryption result (the scalar 1) is installed and
its derived address is the known base-point hash; a 1-byte result fails
with the wrong-length error. -/
theorem c5_witness :
    (("pw" : String) ≠ "" ∧ envOk.decryptKey demoEncKey "pw" = some demoKeyBytes ∧
     demoKeyBytes.length = 32) ∧
    recoveryFromKeyStore envOk ⟨none, none⟩ "f" "pw" =
      ({ privKey := some demoKeyBytes, addr := some (deriveAddr demoKeyBytes) }, none) ∧
    deriveAddr demoKeyBytes =
      [0x75, 0x1e, 0x76, 0xe8, 0x19, 0x91, 0x96, 0xd4, 0x54, 0x94,
       0x1c, 0x45, 0xd1, 0xb3, 0xa3, 0x23, 0xf1, 0x43, 0x3b, 0xd6] :=
  ⟨⟨by decide, rfl, by decide⟩,
   (c5_keylen_check envOk ⟨none, none⟩ "f" "pw" [123] demoEncKey demoKeyBytes
     (by decide) rfl rfl rfl).2 (by decide),
   by decide⟩

/-- C6: both loaders are atomic — whenever a call returns an error, the
manager's fields are exactly what they were before the call. -/
theorem c6_loaders_atomic (env : KeystoreEnv) (k : KMState) (f a : String) :
    ((recoveryFromKeyStore env k f a).2.isSome → (recoveryFromKeyStore env k f a).1 = k) ∧
    ((ImportKeystore env k f a).2.isSome → (ImportKeystore env k f a).1 = k) := by
  constructor
  · by_cases ha : a = ""
    · simp [recoveryFromKeyStore, ha]
    · cases hr : env.readFile f with
      | none => simp [recoveryFromKeyStore, ha, hr]
      | some bs =>
        cases hj : env.jsonUnmarshal bs with
        | none => simp [recoveryFromKeyStore, ha, hr, hj]
        | some ek =>
          cases hd : env.decryptKey ek a with
          | none => simp [recoveryFromKeyStore, ha, hr, hj, hd]
          | some b =>
            by_cases hlen : b.length ≠ 32
            · simp [recoveryFromKeyStore, ha, hr, hj, hd, hlen]
            · simp [recoveryFromKeyStore, ha, hr, hj, hd, hlen]
  · by_cases ha : a = ""
    · simp [ImportKeystore, ha]
    · cases hr : env.readFile f with
      | none => simp [ImportKeystore, ha, hr]
      | some bs =>
        cases hu : env.unarmorDecryptPrivKey bs a with
        | none => simp [ImportKeystore, ha, hr, hu]
        | some sk => simp [ImportKeystore, ha, hr, hu]

/-- C6 witness: with a failing file read both loaders error and leave the
initialized manager exactly as it was. -/
theorem c6_witness :
    ((recoveryFromKeyStore envFail kInited "f" "pw").2.isSome ∧
     (recoveryFromKeyStore envFail kInited "f" "pw").1 = kInited) ∧
    ((ImportKeystore envFail kInited "f" "pw").2.isSome ∧
     (ImportKeystore envFail kInited "f" "pw").1 = kInited) :=
  ⟨⟨by decide, (c6_loaders_atomic envFail kInited "f" "pw").1 (by decide)⟩,
   ⟨by decide, (c6_loaders_atomic envFail kInited "f" "pw").2 (by decide)⟩⟩

/-- C7: `Sign` composes the canonical serialization, the raw signer, the
`StdSignature` wrapping of the manager's public key, and the
length-prefixed marshalling of the assembled transaction; failure of the
signer or the marshaller aborts the call with an error and no bytes. -/
theorem c7_sign_composition (env : SignEnv) (k : KMState) (msg : StdSignMsg)
    (sk : List Nat) (hk : k.privKey = some sk) :
    (env.rawSign sk (env.signBytes msg) = none →
      kmSign env k msg = .error .rawSignErr) ∧
    (∀ sigBytes, env.rawSign sk (env.signBytes msg) = some sigBytes →
      env.marshalTx (NewStdTx msg.msgs msg.fee [⟨pubKeyBytesOf sk, sigBytes⟩] msg.memo) = none →
      kmSign env k msg = .error .marshalErr) ∧
    (∀ sigBytes bz, env.rawSign sk (env.signBytes msg) = some sigBytes →
      env.marshalTx (NewStdTx msg.msgs msg.fee [⟨pubKeyBytesOf sk, sigBytes⟩] msg.memo) = some bz →
      kmSign env k msg = .ok bz) := by
  refine ⟨?_, ?_, ?_⟩
  · intro hs
    simp [kmSign, makeSignature, hk, hs]
  · intro sigBytes hs hm
    simp [kmSign, makeSignature, hk, hs, hm]
  · intro sigBytes bz hs hm
    simp [kmSign, makeSignature, hk, hs, hm]

/-- C7 witness: a concrete environment where signer and marshaller succeed;
the signed bytes are exactly the marshaller's output. -/
theorem c7_witness :
    (kSigner.privKey = some demoKeyBytes ∧
     envSig.rawSign demoKeyBytes (envSig.signBytes demoMsg) = some [1, 2] ∧
     envSig.marshalTx
       (NewStdTx demoMsg.msgs demoMsg.fee [⟨pubKeyBytesOf demoKeyBytes, [1, 2]⟩] demoMsg.memo)
       = some [3, 4]) ∧
    kmSign envSig kSigner demoMsg = .ok [3, 4] :=
  ⟨⟨rfl, rfl, rfl⟩,
   (c7_sign_composition envSig kSigner demoMsg demoKeyBytes rfl).2.2 [1, 2] [3, 4] rfl rfl⟩

/-- C8: for every hex string holding a valid 65-byte public key,
`GetCompressedPubKey` produces the 33-byte compressed serialization of the
parsed point; re-parsing that compressed form (the re-expansion inside
`GetUCPubKey`) recovers exactly the same point, whose uncompressed
serialization is 65 bytes and, for the plain `0x04` form, is the original
byte string — the two wire forms are interconvertible without loss. -/
theorem c8_compress_roundtrip (s : String) (bs : List Nat) (P : Pt)
    (hdec : hexDecode s = some bs)
    (hlen : bs.length = 65)
    (hparse : parsePubKey bs = some P) :
    GetCompressedPubKey s = some (serializeCompressed P) ∧
    (serializeCompressed P).length = 33 ∧
    parsePubKey (serializeCompressed P) = some P ∧
    reExpandCompressed (serializeCompressed P) = some (serializeUncompressed P) ∧
    (serializeUncompressed P).length = 65 ∧
    (bs.headD 0 = 4 → serializeUncompressed P = bs) := by
  obtain ⟨hraw, hx, hy, hc⟩ := parsePubKey_inv bs P hparse
  have hre := parse_serializeCompressed P hx hy hc
  refine ⟨?_, ?_, hre, ?_, ?_, ?_⟩
  · simp [GetCompressedPubKey, hdec, hparse]
  · simp [serializeCompressed, natToBytesBE_length]
  · simp [reExpandCompressed, hre]
  · simp [serializeUncompressed, natToBytesBE_length]
  · intro h4
    cases bs with
    | nil => simp at hlen
    | cons b0 rest =>
      have hb0 : b0 = 4 := by simpa using h4
      subst hb0
      have hrl : rest.length = 64 := by simpa using hlen
      obtain ⟨hX, hY⟩ := parse65_shape 4 rest P hrl hraw
      have hbytes := hexDecode_lt s _ hdec
      have htk : natToBytesBE 32 (bytesToNat (rest.take 32)) = rest.take 32 := by
        have hsub : ∀ b ∈ rest.take 32, b < 256 := fun b hb =>
          hbytes b (List.mem_cons_of_mem _ (List.take_subset _ _ hb))
        have h0 := natToBytesBE_bytesToNat (rest.take 32) hsub
        rwa [List.length_take, hrl, show min 32 64 = 32 by omega] at h0
      have hdp : natToBytesBE 32 (bytesToNat (rest.drop 32)) = rest.drop 32 := by
        have hsub : ∀ b ∈ rest.drop 32, b < 256 := fun b hb =>
          hbytes b (List.mem_cons_of_mem _ (List.drop_subset _ _ hb))
        have h0 := natToBytesBE_bytesToNat (rest.drop 32) hsub
        rwa [List.length_drop, hrl, show 64 - 32 = 32 by omega] at h0
      unfold serializeUncompressed
      rw [hX, hY, htk, hdp, List.take_append_drop]

/-- C8 witness: the doc-comment example key of `key.go` hex-decodes to a
valid 65-byte `0x04` key, and the whole compress/re-expand round trip is
instantiated on it. -/
theorem c8_witness :
    (hexDecode docPubkeyStr = some docPubkeyBytes ∧ docPubkeyBytes.length = 65 ∧
     parsePubKey docPubkeyBytes = some docPubkeyPt) ∧
    (GetCompressedPubKey docPubkeyStr = some (serializeCompressed docPubkeyPt) ∧
     (serializeCompressed docPubkeyPt).length = 33 ∧
     parsePubKey (serializeCompressed docPubkeyPt) = some docPubkeyPt ∧
     reExpandCompressed (serializeCompressed docPubkeyPt) =
       some (serializeUncompressed docPubkeyPt) ∧
     (serializeUncompressed docPubkeyPt).length = 65 ∧
     (docPubkeyBytes.headD 0 = 4 → serializeUncompressed docPubkeyPt = docPubkeyBytes)) :=
  ⟨⟨by decide, by decide, by decide⟩,
   c8_compress_roundtrip docPubkeyStr docPubkeyBytes docPubkeyPt
     (by decide) (by decide) (by decide)⟩

/-- C9: with an empty passphrase both loaders return the password-missing
error without touching the manager, and — since the result is the same for
every environment — without reading or decrypting the keystore. -/
theorem c9_empty_passphrase (env : KeystoreEnv) (k : KMState) (f : String) :
    recoveryFromKeyStore env k f "" = (k, some .passwordMissing) ∧
    ImportKeystore env k f "" = (k, some .passwordMissing) := by
  constructor <;> rfl

/-- C10: `GetBech32AddrByPubkeyStr` fails only on the empty string or a hex
error; every non-empty decodable hex string of any length succeeds with
the bech32 address of the decoded bytes padded or truncated to the fixed
33-byte buffer. -/
theorem c10_pubkey_any_length :
    GetBech32AddrByPubkeyStr "" = .error .emptyPubkey ∧
    (∀ s, s.length ≠ 0 → hexDecode s = none →
      GetBech32AddrByPubkeyStr s = .error .hexErr) ∧
    (∀ s bs, s.length ≠ 0 → hexDecode s = some bs →
      GetBech32AddrByPubkeyStr s =
        .ok (accAddressString (ripemd160 (sha256 (copyPad33 bs)))) ∧
      (copyPad33 bs).length = 33) := by
  refine ⟨by decide, ?_, ?_⟩
  · intro s hs hd
    simp [GetBech32AddrByPubkeyStr, hs, hd]
  · intro s bs hs hd
    constructor
    · simp [GetBech32AddrByPubkeyStr, hs, hd]
    · simp only [copyPad33, List.length_append, List.length_take, List.length_replicate]
      omega

/-- C10 witness: the 1-byte input `ab` (far shorter than 33 bytes) succeeds
and yields the address of `0xab` followed by 32 zero bytes. -/
theorem c10_witness :
    (("ab" : String).length ≠ 0 ∧ hexDecode "ab" = some [171]) ∧
    (GetBech32AddrByPubkeyStr "ab" =
       .ok (accAddressString (ripemd160 (sha256 (copyPad33 [171])))) ∧
     (copyPad33 [171]).length = 33) ∧
    GetBech32AddrByPubkeyStr "ab" = .ok "nch1sxvs2zhcjj3xnnaefzunjs5tg9nmdvpqzexm2h" :=
  ⟨⟨by decide, by decide⟩,
   c10_pubkey_any_length.2.2 "ab" [171] (by decide) (by decide),
   by decide⟩

end NchSdk
